import Mathlib

/-!
Verification development for the office2pdf conversion service (src/main.py).

The service accepts an uploaded office document and returns a PDF rendering,
driving a per-thread cached native Office COM engine.  We give a shallow
embedding of the relevant code:

* `allowed_file`, the filename/extension check (with a faithful model of
  CPython's `ntpath.splitext`, `str.lower`, `str.lstrip`, `str.endswith`);
* `get_office_application`, the per-worker engine cache with its liveness
  probe and reconstruction path;
* `office_to_pdf_stream`, the staged conversion pipeline with its
  try/except/finally structure (close document, delete staged input,
  delete staged output — each deletion and the close wrapped so that a
  failure is logged and swallowed);
* `upload_file`, the request handler dispatching on the filename.

Native COM behaviour (file save, liveness probe, DispatchEx, document open,
PDF export, PDF read, document close, file deletion) is opaque to the code,
so each native step's outcome is an oracle field of `EngineBehavior`.
The filesystem is modelled as the list of staged paths present on disk;
the uuid-prefixed staged paths are abstracted as two given path strings.
-/

/-- Python `str.rfind` for a single character over a list of characters:
index of the last occurrence, `-1` when absent. -/
def pyRFind : List Char → Char → Int
  | [], _ => -1
  | a :: as, c =>
    let r := pyRFind as c
    if 0 ≤ r then r + 1 else if a = c then 0 else -1

/-- CPython `ntpath.splitext` (`genericpath._splitext` with separator `\`,
alternate separator `/` and extension separator `.`): split at the last dot
that lies after the last path separator, unless every character between the
separator and that dot is itself a dot (leading-dot names such as `.docx`
have no extension). -/
def splitext (p : List Char) : List Char × List Char :=
  let sepIndex := max (pyRFind p '\\') (pyRFind p '/')
  let dotIndex := pyRFind p '.'
  if sepIndex < dotIndex then
    let s := (sepIndex + 1).toNat
    let d := dotIndex.toNat
    if ((p.drop s).take (d - s)).any (fun c => c ≠ '.') then (p.take d, p.drop d)
    else (p, [])
  else (p, [])

/-- Python `str.lstrip(".")`: drop leading dots. -/
def lstripDot (l : List Char) : List Char := l.dropWhile (fun c => c = '.')

/-- Python `str.endswith(suffix)`. -/
def pyEndsWith (s suffix : List Char) : Bool := decide (suffix <:+ s)

/-- The set `ALLOWED_EXTENSIONS` of accepted extensions: doc, docx, xls,
xlsx, ppt, pptx (src/main.py line 20). -/
def ALLOWED_EXTENSIONS : List (List Char) :=
  ["doc".data, "docx".data, "xls".data, "xlsx".data, "ppt".data, "pptx".data]

/-- The extension extracted by `allowed_file`:
`os.path.splitext(filename)[1].lower().lstrip(".")` (src/main.py line 272). -/
def extOf (filename : List Char) : List Char :=
  lstripDot ((splitext filename).2.map Char.toLower)

/-- The check `allowed_file` (src/main.py lines 268-273): reject empty names and names
without a dot, otherwise test the lower-cased, dot-stripped final extension
against `ALLOWED_EXTENSIONS`. -/
def allowed_file (filename : List Char) : Bool :=
  if filename = [] ∨ '.' ∉ filename then false
  else decide (extOf filename ∈ ALLOWED_EXTENSIONS)

/-- The `app_type` dispatch inside `upload_file` (src/main.py lines 237-245):
lower-case the whole filename, then test suffixes `.doc`/`.docx` (Word),
`.xls`/`.xlsx` (Excel), anything else PowerPoint. -/
def app_type_of (filename : List Char) : String :=
  let ext_lower := filename.map Char.toLower
  if pyEndsWith ext_lower ".doc".data || pyEndsWith ext_lower ".docx".data then "Word"
  else if pyEndsWith ext_lower ".xls".data || pyEndsWith ext_lower ".xlsx".data then "Excel"
  else "PowerPoint"

/-- Modelled from the spec: the document-kind map
`doc,docx -> WordLike; xls,xlsx -> SpreadsheetLike; ppt,pptx -> PresentationLike`,
written with the code's engine names (`"Word"` for WordLike, `"Excel"` for
SpreadsheetLike, `"PowerPoint"` for PresentationLike), for comparison with
the dispatch actually performed by `upload_file`. -/
def specKindMap (ext : List Char) : String :=
  if ext = "doc".data ∨ ext = "docx".data then "Word"
  else if ext = "xls".data ∨ ext = "xlsx".data then "Excel"
  else "PowerPoint"

/-- Office PDF format constants (src/main.py lines 23-25). -/
def WD_FORMAT_PDF : Nat := 17

/-- The constant `XL_TYPE_PDF = 0` (src/main.py line 24). -/
def XL_TYPE_PDF : Nat := 0

/-- The constant `PP_SAVE_AS_PDF = 32` (src/main.py line 25). -/
def PP_SAVE_AS_PDF : Nat := 32

/-- A native Office application instance held in `thread_local.office_app`:
the `app_type` string it was constructed for (`DispatchEx` argument) plus a
freshness counter distinguishing successive instances. -/
structure EngineInstance where
  kind : String
  id : Nat
deriving DecidableEq, Repr

/-- Outcome of the native document-open call: a usable handle, the `None`
result that `office_to_pdf_stream` turns into an exception, or an exception
raised by the COM call itself. -/
inductive OpenResult where
  | handle
  | nullHandle
  | raisesError
deriving DecidableEq, Repr

/-- Oracle for the opaque native/filesystem steps of one request: whether
`file_obj.save` succeeds, whether the `.Visible` liveness probe succeeds,
whether `DispatchEx` succeeds, the document-open outcome, and whether the
PDF export, the PDF read, the document close and the two `os.remove` calls
succeed. -/
structure EngineBehavior where
  saveOk : Bool
  probeOk : Bool
  dispatchOk : Bool
  openResult : OpenResult
  exportOk : Bool
  readOk : Bool
  closeOk : Bool
  removeInputOk : Bool
  removeOutputOk : Bool
deriving DecidableEq, Repr

/-- Errors that `get_office_application` can raise:
`DispatchEx` failure, or `ValueError("Unsupported application type")`. -/
inductive AcquireError where
  | engineInitError
  | unsupportedAppType
deriving DecidableEq, Repr

/-- Result of `get_office_application`: the returned engine or the raised
error, the new `thread_local.office_app` value, and whether a fresh engine
was constructed by `DispatchEx` during this call. -/
structure AcquireResult where
  result : Except AcquireError EngineInstance
  state : Option EngineInstance
  constructed : Bool
deriving Repr

/-- The reconstruction path of `get_office_application` (src/main.py lines
206-216): `DispatchEx` a fresh instance of the requested `app_type` and
store it in `thread_local.office_app`; an unsupported `app_type` raises
`ValueError`; if `DispatchEx` itself raises, `thread_local.office_app` keeps
its previous value. -/
def dispatchNewEngine (app_type : String) (st : Option EngineInstance)
    (dispatchOk : Bool) (freshId : Nat) : AcquireResult :=
  if app_type = "Word" ∨ app_type = "Excel" ∨ app_type = "PowerPoint" then
    if dispatchOk then
      { result := Except.ok ⟨app_type, freshId⟩,
        state := some ⟨app_type, freshId⟩,
        constructed := true }
    else
      { result := Except.error AcquireError.engineInitError, state := st, constructed := false }
  else
    { result := Except.error AcquireError.unsupportedAppType, state := st, constructed := false }

/-- The cache manager `get_office_application` (src/main.py lines 196-218): if
`thread_local.office_app` is set and the `.Visible` liveness probe succeeds,
return it unchanged (note: the cached instance's kind is not compared with
the requested `app_type`); otherwise reconstruct via `dispatchNewEngine`. -/
def get_office_application (app_type : String) (st : Option EngineInstance)
    (probeOk dispatchOk : Bool) (freshId : Nat) : AcquireResult :=
  match st with
  | some e =>
    if probeOk then { result := Except.ok e, state := some e, constructed := false }
    else dispatchNewEngine app_type st dispatchOk freshId
  | none => dispatchNewEngine app_type st dispatchOk freshId

/-- Errors propagated out of `office_to_pdf_stream` (the `raise` in its
`except` clause re-raises the body's exception after logging). -/
inductive PipelineError where
  | saveFailed
  | engineInitError
  | unsupportedAppType
  | openRaised (app_type : String)
  | openNullHandle (app_type : String) (filename : List Char)
  | exportFailed (app_type : String)
  | readFailed
deriving DecidableEq, Repr

/-- Which native export entry point was invoked (src/main.py lines 147-154):
`doc.SaveAs(path, FileFormat=...)` or `doc.ExportAsFixedFormat(type, path)`. -/
inductive ExportCall where
  | saveAsPdf (fileFormat : Nat)
  | exportAsFixedFormat (pdfType : Nat)
deriving DecidableEq, Repr

/-- Which close call was invoked in the `finally` block (src/main.py lines
167-174): `doc.Close(SaveChanges=False)` for Word and Excel, the bare
`doc.Close()` for PowerPoint. -/
inductive CloseCall where
  | closeSaveChangesFalse
  | closeNoArgs
deriving DecidableEq, Repr

/-- The close call the `finally` block would issue for a given `app_type`
(none of the three branches matches an unknown `app_type`). -/
def closeCallFor (app_type : String) : Option CloseCall :=
  if app_type = "Word" then some CloseCall.closeSaveChangesFalse
  else if app_type = "Excel" then some CloseCall.closeSaveChangesFalse
  else if app_type = "PowerPoint" then some CloseCall.closeNoArgs
  else none

/-- State of the `try` body when control transfers to the `finally` block:
the pending outcome, the filesystem, whether `doc` is non-null, whether the
local variable `pdf_save_path` was assigned, which export call (if any) was
issued, and whether the staged output PDF was actually written. -/
structure BodyOutcome where
  outcome : Except PipelineError (List Char)
  fs : List String
  doc : Bool
  pdfPathSet : Bool
  exportCall : Option ExportCall
  pdfCreated : Bool
deriving Repr

/-- Full observable result of one `office_to_pdf_stream` call. -/
structure ConvResult where
  outcome : Except PipelineError (List Char)
  fs : List String
  state : Option EngineInstance
  engineUsed : Option EngineInstance
  constructed : Bool
  openedDoc : Bool
  exportCall : Option ExportCall
  closeCall : Option CloseCall
  closeRaised : Bool
  pdfCreated : Bool
  inputStaged : Bool
deriving Repr

/-- Remove every occurrence of a path from the modelled filesystem
(`os.remove`). -/
def fsRemove (fs : List String) (p : String) : List String :=
  fs.filter (fun q => q ≠ p)

/-- The `finally` block of `office_to_pdf_stream` (src/main.py lines
165-191): close the document if the handle exists (a raising close is
caught and logged), then delete the staged input if its variable is set and
the file exists (a raising delete is caught and logged), then likewise the
staged output PDF.  The pending body outcome is returned untouched. -/
def finalizeConv (app_type : String) (closeOk removeInputOk removeOutputOk : Bool)
    (inputPath pdfPath : String) (inputStaged : Bool) (b : BodyOutcome)
    (state engineUsed : Option EngineInstance) (constructed : Bool) : ConvResult :=
  let closeCall := if b.doc = true then closeCallFor app_type else none
  let closeRaised := b.doc && (closeCallFor app_type).isSome && !closeOk
  let fs2 :=
    if inputStaged = true ∧ inputPath ∈ b.fs ∧ removeInputOk = true then fsRemove b.fs inputPath
    else b.fs
  let fs3 :=
    if b.pdfPathSet = true ∧ pdfPath ∈ fs2 ∧ removeOutputOk = true then fsRemove fs2 pdfPath
    else fs2
  { outcome := b.outcome, fs := fs3, state := state, engineUsed := engineUsed,
    constructed := constructed, openedDoc := b.doc, exportCall := b.exportCall,
    closeCall := closeCall, closeRaised := closeRaised, pdfCreated := b.pdfCreated,
    inputStaged := inputStaged }

/-- The `try` body of `office_to_pdf_stream` from the document-open dispatch
onward (src/main.py lines 121-160): open dispatched on `app_type` (an
unmatched `app_type` leaves `doc = None`, which raises the same
failed-to-open exception as a null COM result), then the derived
`pdf_filename = splitext(filename)[0] + ".pdf"`, the staged output path,
the kind-dispatched export, and the read of the produced PDF. -/
def convBody (openResult : OpenResult) (exportOk readOk : Bool)
    (filename : List Char) (app_type : String) (pdfPath : String)
    (fs1 : List String) : BodyOutcome :=
  if app_type = "Word" ∨ app_type = "Excel" ∨ app_type = "PowerPoint" then
    match openResult with
    | OpenResult.raisesError =>
      ⟨Except.error (PipelineError.openRaised app_type), fs1, false, false, none, false⟩
    | OpenResult.nullHandle =>
      ⟨Except.error (PipelineError.openNullHandle app_type filename), fs1, false, false, none, false⟩
    | OpenResult.handle =>
      let pdf_filename := (splitext filename).1 ++ ".pdf".data
      let exportCall :=
        if app_type = "Word" then some (ExportCall.saveAsPdf WD_FORMAT_PDF)
        else if app_type = "Excel" then some (ExportCall.exportAsFixedFormat XL_TYPE_PDF)
        else if app_type = "PowerPoint" then some (ExportCall.saveAsPdf PP_SAVE_AS_PDF)
        else none
      if exportOk then
        let fs2 := pdfPath :: fs1
        if readOk then ⟨Except.ok pdf_filename, fs2, true, true, exportCall, true⟩
        else ⟨Except.error PipelineError.readFailed, fs2, true, true, exportCall, true⟩
      else ⟨Except.error (PipelineError.exportFailed app_type), fs1, true, true, exportCall, false⟩
  else
    ⟨Except.error (PipelineError.openNullHandle app_type filename), fs1, false, false, none, false⟩

/-- The `AcquireError` raised by `get_office_application` as it propagates
out of `office_to_pdf_stream`. -/
def acquireErrToPipeline : AcquireError → PipelineError
  | AcquireError.engineInitError => PipelineError.engineInitError
  | AcquireError.unsupportedAppType => PipelineError.unsupportedAppType

/-- The pipeline `office_to_pdf_stream` (src/main.py lines 81-193): stage the upload at
`inputPath` (a raising `file_obj.save` leaves all cleanup variables unset),
acquire the engine, run the open/export/read body, and run the `finally`
block on every path after staging. -/
def office_to_pdf_stream (beh : EngineBehavior) (st0 : Option EngineInstance)
    (freshId : Nat) (fs0 : List String) (inputPath pdfPath : String)
    (filename : List Char) (app_type : String) : ConvResult :=
  if beh.saveOk then
    let fs1 := inputPath :: fs0
    let acq := get_office_application app_type st0 beh.probeOk beh.dispatchOk freshId
    match acq.result with
    | Except.error e =>
      finalizeConv app_type beh.closeOk beh.removeInputOk beh.removeOutputOk
        inputPath pdfPath true
        ⟨Except.error (acquireErrToPipeline e), fs1, false, false, none, false⟩
        acq.state none acq.constructed
    | Except.ok eng =>
      finalizeConv app_type beh.closeOk beh.removeInputOk beh.removeOutputOk
        inputPath pdfPath true
        (convBody beh.openResult beh.exportOk beh.readOk filename app_type pdfPath fs1)
        acq.state (some eng) acq.constructed
  else
    { outcome := Except.error PipelineError.saveFailed, fs := fs0, state := st0,
      engineUsed := none, constructed := false, openedDoc := false, exportCall := none,
      closeCall := none, closeRaised := false, pdfCreated := false, inputStaged := false }

/-- The HTTP responses `upload_file` can produce: a JSON error body carrying
a status code and the string under the `error` key, or a PDF attachment
whose content-disposition carries the derived filename. -/
inductive HttpResponse where
  | errorJson (status : Nat) (message : String)
  | pdfAttachment (filename : List Char)
deriving DecidableEq, Repr

/-- The `str(e)` payload of the 500 response for each pipeline error.  The
failed-open message is the one built at src/main.py line 130; the other
exception texts come from opaque COM/OS errors and are modelled by fixed
descriptive strings. -/
def errToMessage : PipelineError → String
  | PipelineError.saveFailed => "save failed"
  | PipelineError.engineInitError => "engine init failed"
  | PipelineError.unsupportedAppType => "Unsupported application type"
  | PipelineError.openRaised _ => "open raised"
  | PipelineError.openNullHandle app_type filename =>
    "Failed to open document for " ++ app_type ++ ": " ++ String.mk filename
  | PipelineError.exportFailed _ => "export failed"
  | PipelineError.readFailed => "read failed"

/-- Observable result of one `upload_file` request: the response, the final
filesystem and engine state, whether the staging write was ever attempted,
and the inner conversion trace when the pipeline ran. -/
structure UploadResult where
  response : HttpResponse
  fs : List String
  state : Option EngineInstance
  stagingAttempted : Bool
  conv : Option ConvResult
deriving Repr

/-- The handler `upload_file` (src/main.py lines 221-265): reject a request without a
file field with 400 `No file part`; reject an empty filename with 400
`No selected file`; reject a disallowed name with 400 `Invalid file format`
before any staging; otherwise resolve `app_type` from the lower-cased
filename, run the pipeline, and return the PDF attachment on success or a
500 JSON error carrying `str(e)` on failure.  The request is modelled as
`none` (no file field) or `some filename`. -/
def upload_file (beh : EngineBehavior) (st0 : Option EngineInstance) (freshId : Nat)
    (fs0 : List String) (inputPath pdfPath : String)
    (req : Option (List Char)) : UploadResult :=
  match req with
  | none => ⟨HttpResponse.errorJson 400 "No file part", fs0, st0, false, none⟩
  | some fn =>
    if fn = [] then ⟨HttpResponse.errorJson 400 "No selected file", fs0, st0, false, none⟩
    else if allowed_file fn then
      let r := office_to_pdf_stream beh st0 freshId fs0 inputPath pdfPath fn (app_type_of fn)
      match r.outcome with
      | Except.ok pdfName => ⟨HttpResponse.pdfAttachment pdfName, r.fs, r.state, true, some r⟩
      | Except.error e => ⟨HttpResponse.errorJson 500 (errToMessage e), r.fs, r.state, true, some r⟩
    else ⟨HttpResponse.errorJson 400 "Invalid file format", fs0, st0, false, none⟩

/-- The fully successful native behaviour: every opaque step succeeds. -/
def allOkBehavior : EngineBehavior :=
  ⟨true, true, true, OpenResult.handle, true, true, true, true, true⟩

/-- Requests rejected by the validation layer: no file field, empty
filename, or a filename failing `allowed_file`. -/
def isInvalidUpload : Option (List Char) → Bool
  | none => true
  | some fn => fn = [] || !allowed_file fn

/-- The `error` payload `upload_file` answers for each rejected request. -/
def expectedRejection : Option (List Char) → String
  | none => "No file part"
  | some fn => if fn = [] then "No selected file" else "Invalid file format"

/-- One acquisition against the worker's engine cache: the requested
`app_type`, the probe and DispatchEx oracle outcomes, and the freshness
counter for a potential new instance. -/
structure AcquireStep where
  app_type : String
  probeOk : Bool
  dispatchOk : Bool
  freshId : Nat
deriving Repr

/-- Run a sequence of `get_office_application` calls against the worker's
cached engine, counting how many fresh engine constructions occur. -/
def acquireFold : Option EngineInstance → List AcquireStep → Option EngineInstance × Nat
  | st, [] => (st, 0)
  | st, q :: rest =>
    let a := get_office_application q.app_type st q.probeOk q.dispatchOk q.freshId
    let p := acquireFold a.state rest
    (p.1, (if a.constructed then 1 else 0) + p.2)

/-- A path just removed from the modelled filesystem is absent. -/
theorem not_mem_fsRemove (fs : List String) (p : String) : p ∉ fsRemove fs p := by
  simp [fsRemove]

/-- Removing one path never makes another path appear. -/
theorem not_mem_fsRemove_of_not_mem {q : String} {fs : List String} (p : String)
    (h : q ∉ fs) : q ∉ fsRemove fs p := by
  intro hmem
  exact h (List.mem_of_mem_filter hmem)

/-- After the finally block with a succeeding input deletion, the staged
input path is absent (whatever the output deletion flag did). -/
theorem finalizeConv_input_absent (app_type : String) (cOk ro : Bool)
    (ip pp : String) (b : BodyOutcome) (st eu : Option EngineInstance) (k : Bool) :
    ip ∉ (finalizeConv app_type cOk true ro ip pp true b st eu k).fs := by
  unfold finalizeConv
  simp only
  have h2 : ∀ fs2 : List String,
      (ip ∈ fs2 → False) → ip ∉ (if b.pdfPathSet = true ∧ pp ∈ fs2 ∧ ro = true
        then fsRemove fs2 pp else fs2) := by
    intro fs2 hfs2
    split
    · exact not_mem_fsRemove_of_not_mem pp hfs2
    · exact hfs2
  apply h2
  split
  · exact not_mem_fsRemove b.fs ip
  · next hneg => intro hmem; exact hneg ⟨trivial, hmem, trivial⟩

/-- After the finally block with a succeeding output deletion, the staged
output path is absent whenever `pdf_save_path` was assigned (whatever the
input deletion flag did). -/
theorem finalizeConv_pdf_absent (app_type : String) (cOk ri : Bool)
    (ip pp : String) (b : BodyOutcome) (st eu : Option EngineInstance) (k : Bool)
    (hset : b.pdfPathSet = true) :
    pp ∉ (finalizeConv app_type cOk ri true ip pp true b st eu k).fs := by
  unfold finalizeConv
  simp only
  have h2 : ∀ fs2 : List String,
      pp ∉ (if b.pdfPathSet = true ∧ pp ∈ fs2 ∧ True then fsRemove fs2 pp else fs2) := by
    intro fs2
    split
    · exact not_mem_fsRemove fs2 pp
    · next hneg => intro hmem; exact hneg ⟨hset, hmem, trivial⟩
  apply h2

/-- A document handle only exists after one of the three open branches ran,
so `doc` non-null implies a recognised `app_type`. -/
theorem convBody_doc_valid (o : OpenResult) (e r : Bool) (fn : List Char)
    (app_type : String) (pp : String) (fs : List String)
    (h : (convBody o e r fn app_type pp fs).doc = true) :
    app_type = "Word" ∨ app_type = "Excel" ∨ app_type = "PowerPoint" := by
  revert h
  unfold convBody
  split
  · next hv => intro _; exact hv
  · intro h; simp at h

/-- If the staged output PDF was written, the local `pdf_save_path` variable
was assigned. -/
theorem convBody_pdfCreated_pathSet (o : OpenResult) (e r : Bool) (fn : List Char)
    (app_type : String) (pp : String) (fs : List String)
    (h : (convBody o e r fn app_type pp fs).pdfCreated = true) :
    (convBody o e r fn app_type pp fs).pdfPathSet = true := by
  revert h
  unfold convBody
  split
  · cases o
    · cases e <;> cases r <;> intro h <;> rfl
    · intro h; simp at h
    · intro h; simp at h
  · intro h; simp at h

/-- The dispatch in `upload_file` always yields one of the three recognised
engine names. -/
theorem app_type_of_valid (fn : List Char) :
    app_type_of fn = "Word" ∨ app_type_of fn = "Excel" ∨ app_type_of fn = "PowerPoint" := by
  unfold app_type_of
  simp only
  split
  · exact Or.inl rfl
  · split
    · exact Or.inr (Or.inl rfl)
    · exact Or.inr (Or.inr rfl)

/-- An accepted filename is nonempty. -/
theorem allowed_file_ne_nil {fn : List Char} (h : allowed_file fn = true) : fn ≠ [] := by
  intro hfn
  subst hfn
  simp [allowed_file] at h

/-- Claim C6: a request with no file field, an empty filename, or a
disallowed extension is answered with a 400 JSON error whose payload is
`No file part` / `No selected file` / `Invalid file format` respectively,
and no staging write occurs (the filesystem is untouched and the pipeline
is never entered). -/
theorem upload_rejects_invalid (beh : EngineBehavior) (st0 : Option EngineInstance)
    (i : Nat) (fs0 : List String) (ip pp : String) (req : Option (List Char))
    (h : isInvalidUpload req = true) :
    (upload_file beh st0 i fs0 ip pp req).response
      = HttpResponse.errorJson 400 (expectedRejection req) ∧
    (upload_file beh st0 i fs0 ip pp req).stagingAttempted = false ∧
    (upload_file beh st0 i fs0 ip pp req).fs = fs0 := by
  match req with
  | none => exact ⟨rfl, rfl, rfl⟩
  | some fn =>
    by_cases hfn : fn = []
    · subst hfn
      exact ⟨rfl, rfl, rfl⟩
    · have hal : allowed_file fn = false := by
        simp [isInvalidUpload, hfn] at h
        exact h
      simp [upload_file, expectedRejection, hfn, hal]

/-- Witness for C6 at the concrete no-file-field request. -/
theorem upload_rejects_invalid_witness :
    (upload_file allOkBehavior none 0 [] "in" "out" none).response
      = HttpResponse.errorJson 400 "No file part" ∧
    (upload_file allOkBehavior none 0 [] "in" "out" none).stagingAttempted = false ∧
    (upload_file allOkBehavior none 0 [] "in" "out" none).fs = [] := by
  have h := upload_rejects_invalid allOkBehavior none 0 [] "in" "out" none (by decide)
  simpa [expectedRejection] using h

/-- Claim C10: a filename with no dot, or whose `splitext` extension is
empty (for instance a pure leading-dot name such as `.docx`), fails
`allowed_file`, and such a nonempty filename is answered with the 400
`Invalid file format` error before any staging. -/
theorem no_extension_rejected (fn : List Char)
    (h : '.' ∉ fn ∨ (splitext fn).2 = []) :
    allowed_file fn = false ∧
    (∀ (beh : EngineBehavior) (st0 : Option EngineInstance) (i : Nat)
        (fs0 : List String) (ip pp : String), fn ≠ [] →
      (upload_file beh st0 i fs0 ip pp (some fn)).response
        = HttpResponse.errorJson 400 "Invalid file format" ∧
      (upload_file beh st0 i fs0 ip pp (some fn)).stagingAttempted = false ∧
      (upload_file beh st0 i fs0 ip pp (some fn)).fs = fs0) := by
  have hal : allowed_file fn = false := by
    rcases h with h | h
    · simp [allowed_file, h]
    · unfold allowed_file
      split
      · rfl
      · have hx : extOf fn = [] := by simp [extOf, h, lstripDot]
        rw [hx]
        decide
  refine ⟨hal, ?_⟩
  intro beh st0 i fs0 ip pp hne
  simp [upload_file, hne, hal]

/-- Witness for C10 at the concrete filename `.docx`. -/
theorem no_extension_rejected_witness :
    allowed_file ".docx".data = false ∧
    (upload_file allOkBehavior none 0 [] "in" "out" (some ".docx".data)).response
      = HttpResponse.errorJson 400 "Invalid file format" := by
  have h := no_extension_rejected ".docx".data (Or.inr (by decide))
  exact ⟨h.1, (h.2 allOkBehavior none 0 [] "in" "out" (by decide)).1⟩

/-- Claim C2 (exhibit of the code's divergence): with a healthy Word engine
cached in `thread_local.office_app`, acquiring for `Excel` returns the
cached Word instance unchanged and constructs nothing — the liveness-probe
reuse path never compares the cached engine's kind with the requested one,
so the request proceeds on an engine of the wrong kind instead of a fresh
Excel engine. -/
theorem acquire_reuses_wrong_kind :
    (get_office_application "Excel" (some ⟨"Word", 0⟩) true true 1).result
      = Except.ok ⟨"Word", 0⟩ ∧
    (get_office_application "Excel" (some ⟨"Word", 0⟩) true true 1).state
      = some ⟨"Word", 0⟩ ∧
    (get_office_application "Excel" (some ⟨"Word", 0⟩) true true 1).constructed = false ∧
    (⟨"Word", 0⟩ : EngineInstance).kind ≠ "Excel" :=
  ⟨rfl, rfl, rfl, by decide⟩

/-- Claim C7 counterexample: on the PowerPoint path the finally block issues
the bare `doc.Close()` — not a close with an explicit `SaveChanges=False`
discard — so the close does not explicitly discard unsaved changes for
every document kind. -/
theorem powerpoint_close_lacks_discard :
    (office_to_pdf_stream allOkBehavior none 0 [] "in" "out"
        "slides.pptx".data "PowerPoint").openedDoc = true ∧
    (office_to_pdf_stream allOkBehavior none 0 [] "in" "out"
        "slides.pptx".data "PowerPoint").closeCall = some CloseCall.closeNoArgs ∧
    some CloseCall.closeNoArgs ≠ some CloseCall.closeSaveChangesFalse :=
  ⟨rfl, rfl, by decide⟩

/-- Claim C7 (amended): once the native open produced a document handle, the
finally block issues a close call on every exit path; the close passes the
explicit `SaveChanges=False` discard for the Word and Excel kinds, while the
PowerPoint close is the bare `Close()` without a discard argument. -/
theorem close_runs_on_every_exit (beh : EngineBehavior) (st0 : Option EngineInstance)
    (i : Nat) (fs0 : List String) (ip pp : String) (fn : List Char) (app_type : String)
    (h : (office_to_pdf_stream beh st0 i fs0 ip pp fn app_type).openedDoc = true) :
    ∃ cc, (office_to_pdf_stream beh st0 i fs0 ip pp fn app_type).closeCall = some cc ∧
      (app_type = "Word" → cc = CloseCall.closeSaveChangesFalse) ∧
      (app_type = "Excel" → cc = CloseCall.closeSaveChangesFalse) ∧
      (app_type = "PowerPoint" → cc = CloseCall.closeNoArgs) := by
  rcases hs : beh.saveOk with _ | _
  · rw [office_to_pdf_stream, hs] at h
    simp at h
  · rw [office_to_pdf_stream, hs] at h ⊢
    simp only [if_true] at h ⊢
    rcases hacq : (get_office_application app_type st0 beh.probeOk beh.dispatchOk i).result
      with err | eng
    · rw [hacq] at h
      simp [finalizeConv] at h
    · rw [hacq] at h
      have hdoc : (convBody beh.openResult beh.exportOk beh.readOk fn app_type pp
          (ip :: fs0)).doc = true := by
        simpa [finalizeConv] using h
      have hvalid := convBody_doc_valid _ _ _ _ _ _ _ hdoc
      rcases hvalid with hv | hv | hv <;> subst hv
      · refine ⟨CloseCall.closeSaveChangesFalse, ?_, fun _ => rfl, ?_, ?_⟩
        · simp [finalizeConv, hdoc, closeCallFor]
        · intro hx; exact absurd hx (by decide)
        · intro hx; exact absurd hx (by decide)
      · refine ⟨CloseCall.closeSaveChangesFalse, ?_, ?_, fun _ => rfl, ?_⟩
        · simp [finalizeConv, hdoc, closeCallFor]
        · intro hx; exact absurd hx (by decide)
        · intro hx; exact absurd hx (by decide)
      · refine ⟨CloseCall.closeNoArgs, ?_, ?_, ?_, fun _ => rfl⟩
        · simp [finalizeConv, hdoc, closeCallFor]
        · intro hx; exact absurd hx (by decide)
        · intro hx; exact absurd hx (by decide)

/-- Witness for the amended C7: a PowerPoint conversion whose export fails
still gets its close call (the bare PowerPoint `Close()`). -/
theorem close_runs_on_every_exit_witness :
    (office_to_pdf_stream ⟨true, true, true, OpenResult.handle, false, true, true, true, true⟩
        none 0 [] "in" "out" "slides.pptx".data "PowerPoint").openedDoc = true ∧
    ∃ cc, (office_to_pdf_stream ⟨true, true, true, OpenResult.handle, false, true, true, true, true⟩
        none 0 [] "in" "out" "slides.pptx".data "PowerPoint").closeCall = some cc ∧
      ("PowerPoint" = "Word" → cc = CloseCall.closeSaveChangesFalse) ∧
      ("PowerPoint" = "Excel" → cc = CloseCall.closeSaveChangesFalse) ∧
      ("PowerPoint" = "PowerPoint" → cc = CloseCall.closeNoArgs) := by
  refine ⟨rfl, ?_⟩
  have h := close_runs_on_every_exit
    ⟨true, true, true, OpenResult.handle, false, true, true, true, true⟩
    none 0 [] "in" "out" "slides.pptx".data "PowerPoint" rfl
  rcases h with ⟨cc, h1, h2, h3, h4⟩
  exact ⟨cc, h1, h2, h3, h4⟩

/-- The export call recorded by the body is fully determined by `app_type`:
SaveAs with the Word PDF format, ExportAsFixedFormat for Excel, SaveAs with
the PowerPoint PDF format. -/
theorem convBody_exportCall (o : OpenResult) (e r : Bool) (fn : List Char)
    (app_type : String) (pp : String) (fs : List String) (c : ExportCall)
    (h : (convBody o e r fn app_type pp fs).exportCall = some c) :
    (app_type = "Word" → c = ExportCall.saveAsPdf WD_FORMAT_PDF) ∧
    (app_type = "Excel" → c = ExportCall.exportAsFixedFormat XL_TYPE_PDF) ∧
    (app_type = "PowerPoint" → c = ExportCall.saveAsPdf PP_SAVE_AS_PDF) := by
  revert h
  unfold convBody
  split
  · cases o
    · cases e <;> cases r <;> intro h <;> simp only at h <;>
        refine ⟨?_, ?_, ?_⟩ <;> intro hx <;> subst hx <;> simp at h <;> exact h.symm
    · intro h; simp at h
    · intro h; simp at h
  · intro h; simp at h

/-- Claim C4: whenever an export call is issued, Word and PowerPoint
conversions use SaveAs with their PDF format constants, while Excel
conversions use the distinct ExportAsFixedFormat entry point — never
SaveAs. -/
theorem export_dispatch_by_kind (beh : EngineBehavior) (st0 : Option EngineInstance)
    (i : Nat) (fs0 : List String) (ip pp : String) (fn : List Char)
    (app_type : String) (c : ExportCall)
    (h : (office_to_pdf_stream beh st0 i fs0 ip pp fn app_type).exportCall = some c) :
    (app_type = "Word" → c = ExportCall.saveAsPdf WD_FORMAT_PDF) ∧
    (app_type = "Excel" → c = ExportCall.exportAsFixedFormat XL_TYPE_PDF) ∧
    (app_type = "PowerPoint" → c = ExportCall.saveAsPdf PP_SAVE_AS_PDF) ∧
    (app_type = "Excel" → ∀ n, c ≠ ExportCall.saveAsPdf n) := by
  have hc : (convBody beh.openResult beh.exportOk beh.readOk fn app_type pp
      (ip :: fs0)).exportCall = some c := by
    rcases hs : beh.saveOk with _ | _
    · rw [office_to_pdf_stream, hs] at h
      simp at h
    · rw [office_to_pdf_stream, hs] at h
      simp only [if_true] at h
      rcases hacq : (get_office_application app_type st0 beh.probeOk beh.dispatchOk i).result
        with err | eng
      · rw [hacq] at h
        simp [finalizeConv] at h
      · rw [hacq] at h
        simpa [finalizeConv] using h
  have h3 := convBody_exportCall _ _ _ _ _ _ _ _ hc
  refine ⟨h3.1, h3.2.1, h3.2.2, ?_⟩
  intro hx n
  rw [h3.2.1 hx]
  intro hbad
  exact absurd hbad (by simp)

/-- Witness for C4: the concrete Excel conversion of `budget.xls` issues
ExportAsFixedFormat with the PDF type constant, which is not a SaveAs. -/
theorem export_dispatch_by_kind_witness :
    (office_to_pdf_stream allOkBehavior none 0 [] "in" "out" "budget.xls".data
        "Excel").exportCall = some (ExportCall.exportAsFixedFormat XL_TYPE_PDF) ∧
    ExportCall.exportAsFixedFormat XL_TYPE_PDF ≠ ExportCall.saveAsPdf WD_FORMAT_PDF := by
  refine ⟨rfl, ?_⟩
  have h := export_dispatch_by_kind allOkBehavior none 0 [] "in" "out" "budget.xls".data
    "Excel" (ExportCall.exportAsFixedFormat XL_TYPE_PDF) rfl
  exact h.2.2.2 rfl WD_FORMAT_PDF

/-- Claim C9: when the body succeeds through the PDF read, a failing close
call in the finally block is caught: the conversion still returns the PDF
with the derived filename, and the close failure is only logged. -/
theorem close_failure_not_propagated (st0 : Option EngineInstance) (i : Nat)
    (fs0 : List String) (ip pp : String) (fn : List Char) (app_type : String)
    (probe ri ro : Bool)
    (hat : app_type = "Word" ∨ app_type = "Excel" ∨ app_type = "PowerPoint") :
    (office_to_pdf_stream ⟨true, probe, true, OpenResult.handle, true, true, false, ri, ro⟩
        st0 i fs0 ip pp fn app_type).outcome
      = Except.ok ((splitext fn).1 ++ ".pdf".data) ∧
    (office_to_pdf_stream ⟨true, probe, true, OpenResult.handle, true, true, false, ri, ro⟩
        st0 i fs0 ip pp fn app_type).closeRaised = true := by
  rcases hat with hv | hv | hv <;> subst hv <;> rcases st0 with _ | e <;> cases probe <;>
    simp [office_to_pdf_stream, get_office_application, dispatchNewEngine, convBody,
      finalizeConv, closeCallFor]

/-- Witness for C9: the concrete Word conversion with a failing close still
returns `Report.pdf`. -/
theorem close_failure_not_propagated_witness :
    (office_to_pdf_stream ⟨true, true, true, OpenResult.handle, true, true, false, true, true⟩
        none 0 [] "in" "out" "Report.DOCX".data "Word").outcome
      = Except.ok ((splitext "Report.DOCX".data).1 ++ ".pdf".data) ∧
    (office_to_pdf_stream ⟨true, true, true, OpenResult.handle, true, true, false, true, true⟩
        none 0 [] "in" "out" "Report.DOCX".data "Word").closeRaised = true := by
  exact close_failure_not_propagated none 0 [] "in" "out" "Report.DOCX".data "Word"
    true true true (Or.inl rfl)

/-- Claim C8: an engine lease whose liveness probe succeeds is reused
unchanged across any number of subsequent acquisitions with zero fresh
constructions; a lease whose probe fails is reconstructed by exactly the
one `DispatchEx` of that acquisition, which returns the fresh engine of the
requested kind and stores it for the next conversion. -/
theorem lease_reuse_and_single_reconstruction :
    (∀ (e : EngineInstance) (reqs : List AcquireStep),
      (∀ q ∈ reqs, q.probeOk = true) → acquireFold (some e) reqs = (some e, 0)) ∧
    (∀ (e : EngineInstance) (app_type : String) (i : Nat),
      app_type = "Word" ∨ app_type = "Excel" ∨ app_type = "PowerPoint" →
      get_office_application app_type (some e) false true i =
        ⟨Except.ok ⟨app_type, i⟩, some ⟨app_type, i⟩, true⟩) := by
  constructor
  · intro e reqs
    induction reqs with
    | nil => intro _; rfl
    | cons q rest ih =>
      intro hall
      have hq : q.probeOk = true := hall q (List.mem_cons_self q rest)
      have hrest : ∀ x ∈ rest, x.probeOk = true := fun x hx => hall x (List.mem_cons_of_mem q hx)
      simp [acquireFold, get_office_application, hq, ih hrest]
  · intro e app_type i hv
    rcases hv with hv | hv | hv <;> subst hv <;>
      simp [get_office_application, dispatchNewEngine]

/-- Witness for C8: three healthy acquisitions reuse the same Word engine
with zero constructions, and one failed-probe Excel acquisition yields
exactly the fresh Excel engine. -/
theorem lease_reuse_and_single_reconstruction_witness :
    acquireFold (some ⟨"Word", 0⟩)
      [⟨"Word", true, true, 1⟩, ⟨"Word", true, true, 2⟩, ⟨"Word", true, true, 3⟩]
      = (some ⟨"Word", 0⟩, 0) ∧
    get_office_application "Excel" (some ⟨"Excel", 3⟩) false true 7 =
      ⟨Except.ok ⟨"Excel", 7⟩, some ⟨"Excel", 7⟩, true⟩ := by
  constructor
  · exact lease_reuse_and_single_reconstruction.1 ⟨"Word", 0⟩ _ (by decide)
  · exact lease_reuse_and_single_reconstruction.2 ⟨"Excel", 3⟩ "Excel" 7 (by simp)

/-- Claim C3 counterexample: after a conversion whose native open returned a
null handle (healthy PowerPoint lease, `corrupted.pptx`), the worker's lease
is NOT marked stale: `thread_local.office_app` still holds the very same
instance, and the next acquisition with a passing probe returns it without
any reconstruction — recreation is not forced. -/
theorem open_null_does_not_force_recreation :
    (upload_file ⟨true, true, true, OpenResult.nullHandle, true, true, true, true, true⟩
        (some ⟨"PowerPoint", 0⟩) 1 [] "in" "out" (some "corrupted.pptx".data)).state
      = some ⟨"PowerPoint", 0⟩ ∧
    get_office_application "PowerPoint" (some ⟨"PowerPoint", 0⟩) true true 2
      = ⟨Except.ok ⟨"PowerPoint", 0⟩, some ⟨"PowerPoint", 0⟩, false⟩ :=
  ⟨rfl, rfl⟩

/-- Claim C3 (amended): a null result from the native open raises the
failed-to-open exception which `upload_file` answers as a 500 JSON error;
the staged input is still deleted; and the engine lease is left exactly as
the acquisition produced it — it is not marked stale, and the next
acquisition with a passing probe returns the same instance with no
reconstruction. -/
theorem open_null_error_response (beh : EngineBehavior) (st0 : Option EngineInstance)
    (i : Nat) (fs0 : List String) (ip pp : String) (fn : List Char)
    (hs : beh.saveOk = true) (hd : beh.dispatchOk = true)
    (ho : beh.openResult = OpenResult.nullHandle) (hri : beh.removeInputOk = true)
    (hallow : allowed_file fn = true) :
    (upload_file beh st0 i fs0 ip pp (some fn)).response
      = HttpResponse.errorJson 500
          ("Failed to open document for " ++ app_type_of fn ++ ": " ++ String.mk fn) ∧
    ip ∉ (upload_file beh st0 i fs0 ip pp (some fn)).fs ∧
    ∃ en, (upload_file beh st0 i fs0 ip pp (some fn)).state = some en ∧
      ∀ j, get_office_application (app_type_of fn) (some en) true true j
        = ⟨Except.ok en, some en, false⟩ := by
  have hne : fn ≠ [] := allowed_file_ne_nil hallow
  have key : ∀ at_ : String, at_ = "Word" ∨ at_ = "Excel" ∨ at_ = "PowerPoint" →
      (office_to_pdf_stream beh st0 i fs0 ip pp fn at_).outcome
        = Except.error (PipelineError.openNullHandle at_ fn) ∧
      ip ∉ (office_to_pdf_stream beh st0 i fs0 ip pp fn at_).fs ∧
      ∃ en, (office_to_pdf_stream beh st0 i fs0 ip pp fn at_).state = some en := by
    intro at_ hv
    rcases hv with hv | hv | hv <;> subst hv <;> rcases st0 with _ | e <;>
      cases hp : beh.probeOk <;>
      simp [office_to_pdf_stream, hs, hd, ho, hri, hp, get_office_application,
        dispatchNewEngine, convBody, finalizeConv, fsRemove]
  have hk := key (app_type_of fn) (app_type_of_valid fn)
  have hup : upload_file beh st0 i fs0 ip pp (some fn)
      = ⟨HttpResponse.errorJson 500
            (errToMessage (PipelineError.openNullHandle (app_type_of fn) fn)),
          (office_to_pdf_stream beh st0 i fs0 ip pp fn (app_type_of fn)).fs,
          (office_to_pdf_stream beh st0 i fs0 ip pp fn (app_type_of fn)).state,
          true, some (office_to_pdf_stream beh st0 i fs0 ip pp fn (app_type_of fn))⟩ := by
    rw [upload_file]
    rw [if_neg hne, if_pos hallow]
    simp only [hk.1]
  rw [hup]
  refine ⟨rfl, hk.2.1, ?_⟩
  obtain ⟨en, hen⟩ := hk.2.2
  exact ⟨en, hen, fun j => rfl⟩

/-- Witness for the amended C3 at the concrete corrupted-pptx request. -/
theorem open_null_error_response_witness :
    (upload_file ⟨true, true, true, OpenResult.nullHandle, true, true, true, true, true⟩
        (some ⟨"PowerPoint", 0⟩) 1 ["other"] "in" "out" (some "corrupted.pptx".data)).response
      = HttpResponse.errorJson 500
          ("Failed to open document for " ++ app_type_of "corrupted.pptx".data
            ++ ": " ++ String.mk "corrupted.pptx".data) ∧
    "in" ∉ (upload_file ⟨true, true, true, OpenResult.nullHandle, true, true, true, true, true⟩
        (some ⟨"PowerPoint", 0⟩) 1 ["other"] "in" "out" (some "corrupted.pptx".data)).fs := by
  have h := open_null_error_response
    ⟨true, true, true, OpenResult.nullHandle, true, true, true, true, true⟩
    (some ⟨"PowerPoint", 0⟩) 1 ["other"] "in" "out" "corrupted.pptx".data
    rfl rfl rfl rfl (by decide)
  exact ⟨h.1, h.2.1⟩

/-- Claim C1: once the upload was written to the staged input path, after
the conversion call completes — on the success path or with an error from
any step — the staged input is absent, the staged output PDF is absent
whenever it was created, and nothing the cleanup does changes the call's
result: the outcome equals the outcome under a behaviour whose close and
delete steps all succeed, so no cleanup failure ever raises out of the
call. -/
theorem staged_files_cleaned_up (beh : EngineBehavior) (st0 : Option EngineInstance)
    (i : Nat) (fs0 : List String) (ip pp : String) (fn : List Char) (app_type : String)
    (hs : beh.saveOk = true) (hri : beh.removeInputOk = true)
    (hro : beh.removeOutputOk = true) :
    ip ∉ (office_to_pdf_stream beh st0 i fs0 ip pp fn app_type).fs ∧
    ((office_to_pdf_stream beh st0 i fs0 ip pp fn app_type).pdfCreated = true →
      pp ∉ (office_to_pdf_stream beh st0 i fs0 ip pp fn app_type).fs) ∧
    (office_to_pdf_stream beh st0 i fs0 ip pp fn app_type).outcome =
      (office_to_pdf_stream ⟨beh.saveOk, beh.probeOk, beh.dispatchOk, beh.openResult,
        beh.exportOk, beh.readOk, true, true, true⟩ st0 i fs0 ip pp fn app_type).outcome := by
  obtain ⟨s, p, d, o, e, r, c, ri, ro⟩ := beh
  simp only at hs hri hro
  subst hs hri hro
  rw [office_to_pdf_stream, office_to_pdf_stream]
  simp only [if_true]
  rcases hacq : (get_office_application app_type st0 p d i).result with err | eng <;>
    simp only [] <;>
    refine ⟨finalizeConv_input_absent _ _ _ _ _ _ _ _ _, ?_, by simp [finalizeConv]⟩
  · intro hx
    simp [finalizeConv] at hx
  · intro hx
    have hb : (convBody o e r fn app_type pp (ip :: fs0)).pdfCreated = true := by
      simpa [finalizeConv] using hx
    exact finalizeConv_pdf_absent _ _ _ _ _ _ _ _ _
      (convBody_pdfCreated_pathSet _ _ _ _ _ _ _ hb)

/-- Witness for C1: a fully successful Word conversion of `Report.DOCX`
leaves neither staged path on disk, created the PDF, and has the same
outcome as itself under all-succeeding cleanup. -/
theorem staged_files_cleaned_up_witness :
    "in" ∉ (office_to_pdf_stream allOkBehavior none 0 [] "in" "out"
        "Report.DOCX".data "Word").fs ∧
    ((office_to_pdf_stream allOkBehavior none 0 [] "in" "out"
        "Report.DOCX".data "Word").pdfCreated = true →
      "out" ∉ (office_to_pdf_stream allOkBehavior none 0 [] "in" "out"
        "Report.DOCX".data "Word").fs) ∧
    (office_to_pdf_stream allOkBehavior none 0 [] "in" "out"
        "Report.DOCX".data "Word").outcome =
      (office_to_pdf_stream ⟨allOkBehavior.saveOk, allOkBehavior.probeOk,
          allOkBehavior.dispatchOk, allOkBehavior.openResult, allOkBehavior.exportOk,
          allOkBehavior.readOk, true, true, true⟩ none 0 [] "in" "out"
        "Report.DOCX".data "Word").outcome :=
  staged_files_cleaned_up allOkBehavior none 0 [] "in" "out" "Report.DOCX".data "Word"
    rfl rfl rfl

/-- Python `rfind` never returns anything below `-1`. -/
theorem neg_one_le_pyRFind (p : List Char) (c : Char) : -1 ≤ pyRFind p c := by
  induction p with
  | nil => simp [pyRFind]
  | cons a as ih =>
    simp only [pyRFind]
    split
    · omega
    · split <;> omega

/-- Python `rfind` of an absent character is `-1`. -/
theorem pyRFind_eq_neg_one {c : Char} : ∀ {p : List Char}, c ∉ p → pyRFind p c = -1 := by
  intro p
  induction p with
  | nil => intro _; rfl
  | cons a as ih =>
    intro h
    have hca : ¬ a = c := by
      intro hx
      exact h (hx ▸ List.mem_cons_self a as)
    have hcas : c ∉ as := fun hx => h (List.mem_cons_of_mem a hx)
    simp [pyRFind, ih hcas, hca]

/-- Python `rfind` of a present character is nonnegative. -/
theorem pyRFind_nonneg_of_mem {c : Char} : ∀ {p : List Char}, c ∈ p → 0 ≤ pyRFind p c := by
  intro p
  induction p with
  | nil => intro h; exact absurd h (List.not_mem_nil c)
  | cons a as ih =>
    intro h
    by_cases hr : 0 ≤ pyRFind as c
    · simp only [pyRFind]
      split
      · omega
      · omega
    · have hcas : c ∉ as := fun hx => hr (ih hx)
      have hac : a = c := by
        rcases List.mem_cons.mp h with h | h
        · exact h.symm
        · exact absurd h hcas
      simp [pyRFind, pyRFind_eq_neg_one hcas, hac]

/-- A nonnegative `rfind` result locates the last occurrence: the list
splits around `c` with no later occurrence, and the index is the length of
the part before it. -/
theorem pyRFind_decomp {c : Char} : ∀ {p : List Char}, 0 ≤ pyRFind p c →
    ∃ xs ys, p = xs ++ c :: ys ∧ c ∉ ys ∧ pyRFind p c = xs.length := by
  intro p
  induction p with
  | nil => intro h; simp [pyRFind] at h
  | cons a as ih =>
    intro h
    by_cases hr : 0 ≤ pyRFind as c
    · obtain ⟨xs, ys, hp, hys, hlen⟩ := ih hr
      refine ⟨a :: xs, ys, by rw [hp, List.cons_append], hys, ?_⟩
      rw [List.length_cons]
      simp only [pyRFind]
      rw [hlen] at hr ⊢
      rw [if_pos hr]
      push_cast
      ring
    · by_cases hac : a = c
      · have hnotin : c ∉ as := fun hx => hr (pyRFind_nonneg_of_mem hx)
        have h0 : pyRFind (a :: as) c = 0 := by
          simp only [pyRFind]
          rw [pyRFind_eq_neg_one hnotin]
          rw [if_neg (by omega), if_pos hac]
        exact ⟨[], as, by rw [hac]; rfl, hnotin, by rw [h0]; rfl⟩
      · exfalso
        simp only [pyRFind] at h
        rw [if_neg hr, if_neg hac] at h
        omega

/-- When `splitext` returns a nonempty extension, the name splits as
stem ++ dot ++ rest with the extension being the dot and the rest. -/
theorem splitext_snd_decomp (p : List Char) (h : (splitext p).2 ≠ []) :
    ∃ ys, (splitext p).1 ++ '.' :: ys = p ∧ (splitext p).2 = '.' :: ys := by
  by_cases hcond : max (pyRFind p '\\') (pyRFind p '/') < pyRFind p '.'
  · by_cases hany : (((p.drop ((max (pyRFind p '\\') (pyRFind p '/')) + 1).toNat).take
        ((pyRFind p '.').toNat - ((max (pyRFind p '\\') (pyRFind p '/')) + 1).toNat)).any
        (fun c => c ≠ '.')) = true
    · have heq : splitext p = (p.take (pyRFind p '.').toNat, p.drop (pyRFind p '.').toNat) := by
        simp only [splitext]
        rw [if_pos hcond, if_pos hany]
      have hnn : 0 ≤ pyRFind p '.' := by
        have h1 : -1 ≤ max (pyRFind p '\\') (pyRFind p '/') :=
          le_trans (neg_one_le_pyRFind p '\\') (le_max_left _ _)
        omega
      obtain ⟨xs, ys, hp, hys, hlen⟩ := pyRFind_decomp hnn
      have hd : (pyRFind p '.').toNat = xs.length := by omega
      rw [heq]
      refine ⟨ys, ?_, ?_⟩
      · simp only [hd]
        conv_lhs => rw [hp]
        rw [List.take_left]
        exact hp.symm
      · simp only [hd]
        conv_lhs => rw [hp]
        rw [List.drop_left]
    · have heq : splitext p = (p, []) := by
        simp only [splitext]
        rw [if_pos hcond, if_neg (by simpa using hany)]
      rw [heq] at h
      exact absurd rfl h
  · have heq : splitext p = (p, []) := by
      simp only [splitext]
      rw [if_neg hcond]
    rw [heq] at h
    exact absurd rfl h

/-- Dropping the leading dots splits a list into a dot block and the
remainder. -/
theorem lstripDot_decomp : ∀ l : List Char, ∃ k, l = List.replicate k '.' ++ lstripDot l := by
  intro l
  induction l with
  | nil => exact ⟨0, rfl⟩
  | cons a l ih =>
    by_cases ha : a = '.'
    · subst ha
      obtain ⟨k, hk⟩ := ih
      refine ⟨k + 1, ?_⟩
      have hstep : lstripDot ('.' :: l) = lstripDot l := by
        simp [lstripDot, List.dropWhile_cons]
      rw [hstep, List.replicate_succ, List.cons_append]
      exact congrArg (List.cons '.') hk
    · refine ⟨0, ?_⟩
      simp [lstripDot, List.dropWhile_cons, ha]

/-- A dot block followed by a dot and a tail regroups as a dot followed by
the block and the tail. -/
theorem replicate_dot_append (k : Nat) (l : List Char) :
    List.replicate k '.' ++ '.' :: l = '.' :: (List.replicate k '.' ++ l) := by
  induction k with
  | zero => rfl
  | succ k ih =>
    rw [List.replicate_succ, List.cons_append, ih, List.cons_append]

/-- The lower-cased filename ends with a dot followed by the extension that
`allowed_file` extracts. -/
theorem extOf_suffix (fn : List Char) (h2 : (splitext fn).2 ≠ []) :
    ('.' :: extOf fn) <:+ fn.map Char.toLower := by
  obtain ⟨ys, hp, hsnd⟩ := splitext_snd_decomp fn h2
  have hdot : Char.toLower '.' = '.' := rfl
  have he : extOf fn = lstripDot (ys.map Char.toLower) := by
    simp [extOf, hsnd, lstripDot, List.dropWhile_cons, hdot]
  obtain ⟨k, hk⟩ := lstripDot_decomp (ys.map Char.toLower)
  refine ⟨(splitext fn).1.map Char.toLower ++ List.replicate k '.', ?_⟩
  conv_rhs => rw [← hp]
  rw [List.map_append, List.map_cons, hdot]
  rw [List.append_assoc, replicate_dot_append]
  rw [he, ← hk]

/-- Two suffixes of the same list are comparable. -/
theorem suffix_comparable : ∀ (l a b : List Char), a <:+ l → b <:+ l → a <:+ b ∨ b <:+ a := by
  intro l
  induction l with
  | nil =>
    intro a b ha _
    rw [List.suffix_nil.mp ha]
    exact Or.inl (List.nil_suffix)
  | cons x xs ih =>
    intro a b ha hb
    rcases List.suffix_cons_iff.mp ha with ha' | ha'
    · rw [ha']
      exact Or.inr hb
    · rcases List.suffix_cons_iff.mp hb with hb' | hb'
      · rw [hb']
        exact Or.inl (ha'.trans (List.suffix_cons x xs))
      · exact ih a b ha' hb'

/-- Python `endswith` holds exactly on suffixes. -/
theorem pyEndsWith_eq_true {s t : List Char} : pyEndsWith s t = true ↔ t <:+ s := by
  simp [pyEndsWith]

/-- Python `endswith` is refuted by an incomparable known suffix. -/
theorem pyEndsWith_false_of_conflict (s a b : List Char) (hb : b <:+ s)
    (h1 : ¬ a <:+ b) (h2 : ¬ b <:+ a) : pyEndsWith s a = false := by
  rcases hx : pyEndsWith s a with _ | _
  · rfl
  · exfalso
    have ha := pyEndsWith_eq_true.mp hx
    rcases suffix_comparable s a b ha hb with h | h
    · exact h1 h
    · exact h2 h

/-- An accepted filename splits and its extracted extension is one of the
six allowed ones. -/
theorem allowed_file_cases {fn : List Char} (h : allowed_file fn = true) :
    (splitext fn).2 ≠ [] ∧ extOf fn ∈ ALLOWED_EXTENSIONS := by
  unfold allowed_file at h
  split at h
  · exact absurd h (by simp)
  · constructor
    · intro h2
      have hx : extOf fn = [] := by simp [extOf, h2, lstripDot]
      rw [hx] at h
      exact absurd h (by decide)
    · exact of_decide_eq_true h

/-- The suffix-based dispatch of `upload_file` agrees with the spec's
extension-to-kind map on every accepted filename. -/
theorem app_type_matches_spec {fn : List Char} (h : allowed_file fn = true) :
    app_type_of fn = specKindMap (extOf fn) := by
  obtain ⟨h2, hmem⟩ := allowed_file_cases h
  have hsuf : ('.' :: extOf fn) <:+ fn.map Char.toLower := extOf_suffix fn h2
  simp only [ALLOWED_EXTENSIONS, List.mem_cons, List.not_mem_nil, or_false] at hmem
  rcases hmem with he | he | he | he | he | he <;> rw [he] at hsuf <;> rw [he]
  · have h1 : pyEndsWith (fn.map Char.toLower) ".doc".data = true :=
      pyEndsWith_eq_true.mpr hsuf
    simp [app_type_of, specKindMap, h1]
  · have h1 : pyEndsWith (fn.map Char.toLower) ".docx".data = true :=
      pyEndsWith_eq_true.mpr hsuf
    simp [app_type_of, specKindMap, h1]
  · have hf1 : pyEndsWith (fn.map Char.toLower) ".doc".data = false :=
      pyEndsWith_false_of_conflict _ _ ".xls".data hsuf (by decide) (by decide)
    have hf2 : pyEndsWith (fn.map Char.toLower) ".docx".data = false :=
      pyEndsWith_false_of_conflict _ _ ".xls".data hsuf (by decide) (by decide)
    have h1 : pyEndsWith (fn.map Char.toLower) ".xls".data = true :=
      pyEndsWith_eq_true.mpr hsuf
    simp [app_type_of, specKindMap, hf1, hf2, h1]
  · have hf1 : pyEndsWith (fn.map Char.toLower) ".doc".data = false :=
      pyEndsWith_false_of_conflict _ _ ".xlsx".data hsuf (by decide) (by decide)
    have hf2 : pyEndsWith (fn.map Char.toLower) ".docx".data = false :=
      pyEndsWith_false_of_conflict _ _ ".xlsx".data hsuf (by decide) (by decide)
    have h1 : pyEndsWith (fn.map Char.toLower) ".xlsx".data = true :=
      pyEndsWith_eq_true.mpr hsuf
    simp [app_type_of, specKindMap, hf1, hf2, h1]
  · have hf1 : pyEndsWith (fn.map Char.toLower) ".doc".data = false :=
      pyEndsWith_false_of_conflict _ _ ".ppt".data hsuf (by decide) (by decide)
    have hf2 : pyEndsWith (fn.map Char.toLower) ".docx".data = false :=
      pyEndsWith_false_of_conflict _ _ ".ppt".data hsuf (by decide) (by decide)
    have hf3 : pyEndsWith (fn.map Char.toLower) ".xls".data = false :=
      pyEndsWith_false_of_conflict _ _ ".ppt".data hsuf (by decide) (by decide)
    have hf4 : pyEndsWith (fn.map Char.toLower) ".xlsx".data = false :=
      pyEndsWith_false_of_conflict _ _ ".ppt".data hsuf (by decide) (by decide)
    simp [app_type_of, specKindMap, hf1, hf2, hf3, hf4]
  · have hf1 : pyEndsWith (fn.map Char.toLower) ".doc".data = false :=
      pyEndsWith_false_of_conflict _ _ ".pptx".data hsuf (by decide) (by decide)
    have hf2 : pyEndsWith (fn.map Char.toLower) ".docx".data = false :=
      pyEndsWith_false_of_conflict _ _ ".pptx".data hsuf (by decide) (by decide)
    have hf3 : pyEndsWith (fn.map Char.toLower) ".xls".data = false :=
      pyEndsWith_false_of_conflict _ _ ".pptx".data hsuf (by decide) (by decide)
    have hf4 : pyEndsWith (fn.map Char.toLower) ".xlsx".data = false :=
      pyEndsWith_false_of_conflict _ _ ".pptx".data hsuf (by decide) (by decide)
    simp [app_type_of, specKindMap, hf1, hf2, hf3, hf4]

/-- Under the fully successful native behaviour the pipeline returns the
derived PDF filename for any recognised `app_type`. -/
theorem conv_allOk_outcome (st0 : Option EngineInstance) (i : Nat) (fs0 : List String)
    (ip pp : String) (fn : List Char) (app_type : String)
    (hat : app_type = "Word" ∨ app_type = "Excel" ∨ app_type = "PowerPoint") :
    (office_to_pdf_stream allOkBehavior st0 i fs0 ip pp fn app_type).outcome
      = Except.ok ((splitext fn).1 ++ ".pdf".data) := by
  rcases hat with h | h | h <;> subst h <;> rcases st0 with _ | e <;>
    simp [office_to_pdf_stream, allOkBehavior, get_office_application, dispatchNewEngine,
      convBody, finalizeConv]

/-- Claim C5: on every accepted upload the document kind is resolved exactly
as the spec's case-insensitive extension map prescribes, and under a fully
successful conversion the response carries the input basename with its
extension replaced by `.pdf`. -/
theorem extension_map_and_pdf_filename (fn : List Char) (st0 : Option EngineInstance)
    (i : Nat) (fs0 : List String) (ip pp : String)
    (h : allowed_file fn = true) :
    app_type_of fn = specKindMap (extOf fn) ∧
    (upload_file allOkBehavior st0 i fs0 ip pp (some fn)).response
      = HttpResponse.pdfAttachment ((splitext fn).1 ++ ".pdf".data) := by
  refine ⟨app_type_matches_spec h, ?_⟩
  have hne := allowed_file_ne_nil h
  have hout := conv_allOk_outcome st0 i fs0 ip pp fn (app_type_of fn) (app_type_of_valid fn)
  rw [upload_file, if_neg hne, if_pos h]
  simp only [hout]

/-- Witness for C5 at the concrete upload `Report.DOCX`. -/
theorem extension_map_and_pdf_filename_witness :
    app_type_of "Report.DOCX".data = specKindMap (extOf "Report.DOCX".data) ∧
    (upload_file allOkBehavior none 0 [] "in" "out" (some "Report.DOCX".data)).response
      = HttpResponse.pdfAttachment ((splitext "Report.DOCX".data).1 ++ ".pdf".data) :=
  extension_map_and_pdf_filename "Report.DOCX".data none 0 [] "in" "out" (by decide)
